import Mathlib

/-!
Shallow embedding of the Tuneminal playback engine (Go sources:
`AudioPlayer` and lyric handling in the `player` package, karaoke
scoring in the TUI `App`).  Durations (Go `time.Duration`, int64
nanoseconds) are modelled as `Int`; Go `float64` audio samples and
volumes are modelled as `ℚ`; decoded sample frames are pairs of
rationals; the PCM byte buffer is a `List Nat` of byte values.
External collaborators (filesystem, decoder, audio device, random
draws) are passed in as explicit parameters.
-/

namespace Tuneminal

/-- Value of `time.Second` in nanoseconds; Go `time.Duration` values are
`Int` nanosecond counts throughout. -/
def second : Int := 1000000000

/-- State of the Go `AudioPlayer` struct (`player` package).
`hasPlayer` models `p.player != nil`; `hasContext` models
`p.otoContext != nil`.  The byte buffer `audioData` and the scalar
fields follow the struct field by field. -/
structure PlayerState where
  isLoaded : Bool
  isPlaying : Bool
  isPaused : Bool
  hasPlayer : Bool
  hasContext : Bool
  currentFile : String
  audioData : List Nat
  sampleRate : Nat
  channels : Nat
  duration : Int
  position : Int
  volume : ℚ
  deriving Repr, DecidableEq

/-- Constructor `NewAudioPlayer`: fresh player, 44100 Hz stereo, volume 1. -/
def NewAudioPlayer : PlayerState :=
  { isLoaded := false, isPlaying := false, isPaused := false
    hasPlayer := false, hasContext := false, currentFile := ""
    audioData := [], sampleRate := 44100, channels := 2
    duration := 0, position := 0, volume := 1 }

/-- Helper `stopInternal`: closes the player handle, clears the
playing/paused flags and resets the position to 0.  Track data
(`audioData`, `duration`, `isLoaded`, …) is untouched. -/
def stopInternal (p : PlayerState) : PlayerState :=
  { p with hasPlayer := false, isPlaying := false, isPaused := false
           position := 0 }

/-- Method `Stop`: public wrapper around `stopInternal`. -/
def Stop (p : PlayerState) : PlayerState := stopInternal p

/-- Method `Pause`: only acts when playing with a live player handle. -/
def Pause (p : PlayerState) : PlayerState :=
  if p.isPlaying && p.hasPlayer then
    { p with isPaused := true, isPlaying := false }
  else p

/-- Method `Resume`: only acts when paused with a live player handle; flips
the flags back to playing and touches nothing else. -/
def Resume (p : PlayerState) : PlayerState :=
  if p.isPaused && p.hasPlayer then
    { p with isPaused := false, isPlaying := true }
  else p

/-- Method `SetVolume`: clamps the requested volume to `[0, 1]` and stores it. -/
def SetVolume (v : ℚ) (p : PlayerState) : PlayerState :=
  { p with volume := if v < 0 then 0 else if v > 1 then 1 else v }

/-- Method `Play`: errors when nothing is loaded or the context is missing;
otherwise stops any existing playback, opens a fresh player over the
whole buffer and starts from position 0. -/
def Play (p : PlayerState) : Except String Unit × PlayerState :=
  if !p.isLoaded || p.audioData.length == 0 then
    (.error "no audio file loaded", p)
  else if !p.hasContext then
    (.error "audio context not initialized", p)
  else
    let p1 := stopInternal p
    (.ok (), { p1 with hasPlayer := true, isPlaying := true
                       isPaused := false, position := 0 })

/-- Method `SeekTo`: rejected unless a track is loaded *and* a player handle
exists; clamps the target to `[0, duration]`, rebuilds the player at
the matching byte offset and restores the playing flag if playback
was active. -/
def SeekTo (t : Int) (p : PlayerState) :
    Except String Unit × PlayerState :=
  if !p.isLoaded || !p.hasPlayer then
    (.error "no audio file loaded or player not available", p)
  else
    let pos : Int :=
      if t < 0 then 0 else if t > p.duration then p.duration else t
    let wasPlaying := p.isPlaying
    let p1 := stopInternal p
    let p2 := { p1 with hasPlayer := true, position := pos }
    if wasPlaying then
      (.ok (), { p2 with isPlaying := true, isPaused := false })
    else
      (.ok (), p2)

/-! ### Sample buffer builder (`convertToRawPCM`) -/

/-- Clamp a scaled sample to `[-1, 1]` ("clamp values to prevent
distortion" in the source, applied *after* volume scaling). -/
def clampSample (x : ℚ) : ℚ :=
  if x > 1 then 1 else if x < -1 then -1 else x

/-- Go `int16(x)` conversion of an in-range float: truncation toward
zero (`Int` division truncates toward zero, and `x.den > 0`). -/
def truncQ (x : ℚ) : Int :=
  x.num / (x.den : Int)

/-- Go `int16(x * 32767)`: quantization of a clamped sample. -/
def quant16 (x : ℚ) : Int := truncQ (x * 32767)

/-- Go `byte(v)`: the low 8 bits of a 16-bit signed value. -/
def loByte (v : Int) : Nat := (v % 256).toNat

/-- Go `byte(v >> 8)`: arithmetic shift right by 8 (floor division by
256), then the low 8 bits. -/
def hiByte (v : Int) : Nat := ((Int.fdiv v 256) % 256).toNat

/-- A bounds-checked byte store `pcmData[i] = b`.  `none` models the
Go runtime panic `index out of range`. -/
def writeByte (buf : List Nat) (i : Nat) (b : Nat) : Option (List Nat) :=
  if i < buf.length then some (buf.set i b) else none

/-- Body of the conversion loop for frame number `i` holding the pair
`sample`: scale by `volume`, clamp, quantize, store little-endian at
`i*4 .. i*4+3` (the right channel only when `channels > 1`). -/
def convertFrame (channels : Nat) (volume : ℚ) (i : Nat)
    (sample : ℚ × ℚ) (buf : List Nat) : Option (List Nat) := do
  let left := clampSample (sample.1 * volume)
  let right := clampSample (sample.2 * volume)
  let leftInt := quant16 left
  let rightInt := quant16 right
  let buf1 ← writeByte buf (i * 4) (loByte leftInt)
  let buf2 ← writeByte buf1 (i * 4 + 1) (hiByte leftInt)
  if channels > 1 then
    let buf3 ← writeByte buf2 (i * 4 + 2) (loByte rightInt)
    writeByte buf3 (i * 4 + 3) (hiByte rightInt)
  else
    pure buf2

/-- The `for i, sample := range samples` loop of `convertToRawPCM`. -/
def convertLoop (channels : Nat) (volume : ℚ) :
    List (ℚ × ℚ) → Nat → List Nat → Option (List Nat)
  | [], _, buf => some buf
  | s :: rest, i, buf => do
      let buf' ← convertFrame channels volume i s buf
      convertLoop channels volume rest (i + 1) buf'

/-- Method `convertToRawPCM`: allocates `len(samples)*2*channels` zero bytes
and runs the conversion loop over all decoded frames.  `none` models
an out-of-bounds store (a Go panic). -/
def convertToRawPCM (channels : Nat) (volume : ℚ)
    (samples : List (ℚ × ℚ)) : Option (List Nat) :=
  convertLoop channels volume samples 0
    (List.replicate (samples.length * 2 * channels) 0)

/-- Spec-side description of one stereo frame's four output bytes
(for comparison with `convertToRawPCM`): apply `sample * volume`
first, then clamp to `[-1, 1]`, then quantize to a 16-bit signed
integer stored little-endian, left channel then right. -/
def frameBytes (volume : ℚ) (s : ℚ × ℚ) : List Nat :=
  [loByte (quant16 (clampSample (s.1 * volume))),
   hiByte (quant16 (clampSample (s.1 * volume))),
   loByte (quant16 (clampSample (s.2 * volume))),
   hiByte (quant16 (clampSample (s.2 * volume)))]

/-! ### `LoadFile` -/

/-- Outcome of the external decoder collaborator (`mp3.Decode` /
`wav.Decode`): failure, or decoded frames plus the format's sample
rate and channel count. -/
inductive DecodeOutcome where
  | fail
  | ok (frames : List (ℚ × ℚ)) (rate : Nat) (channels : Nat)
  deriving Repr, DecidableEq

/-- Method `LoadFile`: stops any current playback first, then checks the
file, the extension and the decoder in the source's order.  On
success it stores the decoded parameters, the PCM buffer and the
computed duration.  The outer `Option` is `none` when the conversion
loop stores out of bounds or the duration computation divides by
zero (Go panics). -/
def LoadFile (fileExists : Bool) (ext : String) (dec : DecodeOutcome)
    (filename : String) (p : PlayerState) :
    Option (Except String Unit × PlayerState) :=
  let p1 := stopInternal p
  if !fileExists then
    some (.error ("audio file not found: " ++ filename), p1)
  else if ext = ".mp3" ∨ ext = ".wav" then
    match dec with
    | .fail => some (.error "failed to decode", p1)
    | .ok frames rate ch =>
      let p2 := { p1 with sampleRate := rate, channels := ch
                          hasContext := true }
      match convertToRawPCM ch p2.volume frames with
      | none => none
      | some data =>
        let samplesPerSecond := rate * ch
        if samplesPerSecond = 0 then none
        else
          let totalSamples := data.length / 2
          let dur : Int := (totalSamples / samplesPerSecond : Nat) * second
          some (.ok (), { p2 with audioData := data, isLoaded := true
                                  currentFile := filename, position := 0
                                  duration := dur })
  else
    some (.error ("unsupported file format: " ++ ext), p1)

/-! ### Lyrics (`player` package) -/

/-- Structure `LyricEntry`: a parsed LRC line. -/
structure LyricEntry where
  time : Int
  text : String
  deriving Repr, DecidableEq

/-- The index-carrying pass of `ValidateLyrics`'s ordering loop:
`prev` is `lyrics[i-1]`, the list argument holds `lyrics[i..]`. -/
def checkOrder : LyricEntry → List LyricEntry → Nat → Except String Unit
  | _, [], _ => .ok ()
  | prev, e :: rest, i =>
    if e.time < prev.time then
      .error ("lyrics are not in chronological order at position " ++ toString i)
    else checkOrder e rest (i + 1)

/-- Function `ValidateLyrics`: rejects an empty list, otherwise scans adjacent
pairs for a timestamp smaller than its predecessor. -/
def ValidateLyrics (lyrics : List LyricEntry) : Except String Unit :=
  match lyrics with
  | [] => .error "no lyrics found"
  | e :: rest => checkOrder e rest 1

/-- The scan of `FindLyricAtTime`: keeps the most recent entry whose
timestamp is ≤ `t`, breaking at the first later entry. -/
def findAtGo (t : Int) : List LyricEntry → Option LyricEntry → Option LyricEntry
  | [], cur => cur
  | e :: rest, cur => if e.time ≤ t then findAtGo t rest (some e) else cur

/-- Function `FindLyricAtTime`: the entry active at time `t`, or `none`. -/
def FindLyricAtTime (lyrics : List LyricEntry) (t : Int) :
    Option LyricEntry :=
  findAtGo t lyrics none

/-! ### Karaoke scoring (`App`) -/

/-- A display lyric line with scoring flags (`LyricLine` in the TUI). -/
structure LyricLine where
  time : Int
  text : String
  index : Int
  isActive : Bool
  isHit : Bool
  deriving Repr, DecidableEq

/-- The scan of `findCurrentLyricIndex`: `acc` is the last index seen
whose timestamp is ≤ `t`; the loop breaks at the first later line. -/
def findLyricGo (t : Int) : List LyricLine → Int → Nat → Int
  | [], acc, _ => acc
  | l :: rest, acc, i =>
    if l.time ≤ t then findLyricGo t rest (i : Int) (i + 1) else acc

/-- Function `findCurrentLyricIndex`: index of the line active at `t`, or -1. -/
def findCurrentLyricIndex (t : Int) (lines : List LyricLine) : Int :=
  findLyricGo t lines (-1) 0

/-- The karaoke-scoring fields of the `App` struct. -/
structure KaraokeState where
  karaokeScore : Int
  streak : Nat
  accuracy : ℚ
  totalLyrics : Nat
  hitLyrics : Nat
  beatPhase : Nat
  lyricLines : List LyricLine
  deriving Repr, DecidableEq

/-- Function `calculateHitChance`: 70% base, streak bonus capped at 20%,
progress bonus, on-beat bonus, total capped at 95%. -/
def calculateHitChance (a : KaraokeState) (lyricIndex : Nat) : ℚ :=
  let baseChance : ℚ := 7/10
  let streakBonus0 : ℚ := (a.streak : ℚ) * (5/100)
  let streakBonus := if streakBonus0 > 1/5 then (1/5 : ℚ) else streakBonus0
  let progressBonus := ((lyricIndex : ℚ) / (a.lyricLines.length : ℚ)) * (1/10)
  let beatBonus : ℚ := if a.beatPhase = 0 then 1/10 else 0
  let total := baseChance + streakBonus + progressBonus + beatBonus
  if total > 95/100 then 95/100 else total

/-- Function `hitLyric`: marks the line as hit, counts it, awards points
scaled by the streak, increments the streak, and pays the milestone
bonuses at streak 5, 10 and multiples of 15. -/
def hitLyric (lyricIndex : Int) (a : KaraokeState) : KaraokeState :=
  if lyricIndex < 0 ∨ (a.lyricLines.length : Int) ≤ lyricIndex then a
  else
    match a.lyricLines[lyricIndex.toNat]? with
    | none => a
    | some l =>
      if l.isHit then a
      else
        let a1 := { a with
          lyricLines := a.lyricLines.set lyricIndex.toNat { l with isHit := true }
          hitLyrics := a.hitLyrics + 1 }
        let basePoints : ℚ := 100
        let streakMultiplier : ℚ := 1 + (a1.streak : ℚ) / 10
        let beatBonus : Int := if a1.beatPhase = 0 then 50 else 0
        let points : Int := truncQ (basePoints * streakMultiplier) + beatBonus
        let a2 := { a1 with karaokeScore := a1.karaokeScore + points }
        let a3 := { a2 with streak := a2.streak + 1 }
        if a3.streak = 5 then { a3 with karaokeScore := a3.karaokeScore + 500 }
        else if a3.streak = 10 then { a3 with karaokeScore := a3.karaokeScore + 1000 }
        else if a3.streak % 15 = 0 then { a3 with karaokeScore := a3.karaokeScore + 2000 }
        else a3

/-- Function `calculateAccuracy`: lazily initializes `totalLyrics` from the
loaded lines, then returns `hits / total × 100` (0 when empty).  The
second component is the updated `totalLyrics` field. -/
def calculateAccuracy (a : KaraokeState) : ℚ × Nat :=
  let total := if a.totalLyrics = 0 then a.lyricLines.length else a.totalLyrics
  if total = 0 then (0, total)
  else ((a.hitLyrics : ℚ) / (total : ℚ) * 100, total)

/-- Function `updateKaraokeScoring`: one scoring tick at position `pos`.
`draw` is the `rand.Float64()` sample.  A line not yet active is
marked active (first visit only) and a hit is evaluated against
`calculateHitChance`; accuracy is recomputed at the end. -/
def updateKaraokeScoring (pos : Int) (draw : ℚ) (a : KaraokeState) :
    KaraokeState :=
  if a.lyricLines.length = 0 then a
  else
    let activeIndex := findCurrentLyricIndex pos a.lyricLines
    let a1 :=
      if 0 ≤ activeIndex ∧ activeIndex < (a.lyricLines.length : Int) then
        match a.lyricLines[activeIndex.toNat]? with
        | none => a
        | some l =>
          if !l.isHit && !l.isActive then
            let a' := { a with
              lyricLines := a.lyricLines.set activeIndex.toNat
                { l with isActive := true } }
            let hitChance := calculateHitChance a' activeIndex.toNat
            if draw < hitChance then hitLyric activeIndex a' else a'
          else a
      else a
    let p := calculateAccuracy a1
    { a1 with accuracy := p.1, totalLyrics := p.2 }

/-- The lyric-loading and session-reset prefix of the TUI `play()`
routine: the loaded lines replace `lyricLines`, and only a *fresh*
playback (`isPaused = false`) zeroes score, streak, accuracy and hit
counters and clears every line's hit/active flag; a resume-from-pause
skips the reset entirely. -/
def playKaraoke (isPaused : Bool) (loaded : List LyricLine)
    (a : KaraokeState) : KaraokeState :=
  let a1 := { a with lyricLines := loaded }
  if !isPaused then
    { a1 with karaokeScore := 0, streak := 0, accuracy := 0
              totalLyrics := a1.lyricLines.length, hitLyrics := 0
              lyricLines := a1.lyricLines.map
                (fun l => { l with isHit := false, isActive := false }) }
  else a1

/-- Returns `true` iff an `Except` result is a success. -/
def exceptOk : Except String Unit → Bool
  | .ok _ => true
  | .error _ => false

/-- A concrete player state mid-playback: loaded, playing, 10 s
track, current position 5 s. -/
def demoPlaying : PlayerState :=
  { isLoaded := true, isPlaying := true, isPaused := false
    hasPlayer := true, hasContext := true, currentFile := "a.mp3"
    audioData := [0, 0, 0, 0], sampleRate := 44100, channels := 2
    duration := 10 * second, position := 5 * second, volume := 1 }

/-- A concrete paused player state at position 5 s. -/
def demoPaused : PlayerState :=
  { demoPlaying with isPlaying := false, isPaused := true }

/-- The spec's scenario timeline `[(0s,"A"), (3s,"B"), (6s,"")]`. -/
def demoTimeline : List LyricLine :=
  [⟨0, "A", 0, false, false⟩, ⟨3 * second, "B", 1, false, false⟩,
   ⟨6 * second, "", 2, false, false⟩]

/-- C1: when a track is loaded and a player session exists, `SeekTo t`
succeeds and leaves `position` clamped into `[0, duration]`: negative
targets go to 0, over-long targets to `duration`, in-range targets are
taken verbatim (duration is non-negative by the track invariant). -/
theorem seekTo_clamps_position (t : Int) (p : PlayerState)
    (hL : p.isLoaded = true) (hP : p.hasPlayer = true)
    (hD : 0 ≤ p.duration) :
    (SeekTo t p).1 = .ok () ∧
    0 ≤ (SeekTo t p).2.position ∧
    (SeekTo t p).2.position ≤ p.duration ∧
    (t < 0 → (SeekTo t p).2.position = 0) ∧
    (p.duration < t → (SeekTo t p).2.position = p.duration) ∧
    (0 ≤ t → t ≤ p.duration → (SeekTo t p).2.position = t) := by
  cases hip : p.isPlaying <;>
    simp [SeekTo, hL, hP, stopInternal, hip] <;> split_ifs <;> omega

/-- Witness for C1 at the playing demo state with an out-of-range
negative target. -/
theorem seekTo_clamps_position_witness :
    (SeekTo (-3) demoPlaying).1 = .ok () ∧
    0 ≤ (SeekTo (-3) demoPlaying).2.position ∧
    (SeekTo (-3) demoPlaying).2.position ≤ demoPlaying.duration ∧
    ((-3 : Int) < 0 → (SeekTo (-3) demoPlaying).2.position = 0) ∧
    (demoPlaying.duration < -3 →
      (SeekTo (-3) demoPlaying).2.position = demoPlaying.duration) ∧
    (0 ≤ (-3 : Int) → (-3 : Int) ≤ demoPlaying.duration →
      (SeekTo (-3) demoPlaying).2.position = -3) :=
  seekTo_clamps_position (-3) demoPlaying rfl rfl (by decide)

/-- C7 (amended): `SeekTo` is accepted exactly when a track is loaded
*and* a live player session exists; with a track loaded but no player
(just after `LoadFile`, or after `Stop`) it is rejected with the same
error as the not-loaded case. -/
theorem seekTo_ok_iff (t : Int) (p : PlayerState) :
    (SeekTo t p).1 = .ok () ↔ (p.isLoaded = true ∧ p.hasPlayer = true) := by
  cases hL : p.isLoaded <;> cases hP : p.hasPlayer <;>
    simp [SeekTo, hL, hP]
  cases p.isPlaying <;> simp

/-- Counterexample for C7: a successful `LoadFile` leaves
`isLoaded = true` but no player session, and the immediately following
`SeekTo` is rejected — `Loaded` is not an accepting state for seek. -/
theorem seekTo_rejected_after_load :
    (LoadFile true ".wav" (.ok [((0 : ℚ), 0)] 44100 2) "s.wav"
        NewAudioPlayer).map
      (fun r => (exceptOk r.1, r.2.isLoaded, r.2.hasPlayer,
                 exceptOk (SeekTo 0 r.2).1)) =
      some (true, true, false, false) := by
  decide

/-- C2 (amended): when `LoadFile` fails — missing file, unsupported
extension, or decoder failure — the loaded-track data (`isLoaded`,
`audioData`, `duration`, `sampleRate`, `channels`, `currentFile`,
`volume`) is exactly what it was before the call, so a previously
loaded track stays loaded; but the call has already stopped playback:
the post-state is `stopInternal` of the pre-state, with
`isPlaying = isPaused = false`, the player session closed and
`position` reset to 0. -/
theorem loadFile_failure_state (fileExists : Bool) (ext : String)
    (dec : DecodeOutcome) (f : String) (p : PlayerState)
    (r : Except String Unit) (p' : PlayerState) (msg : String)
    (h : LoadFile fileExists ext dec f p = some (r, p'))
    (hr : r = .error msg) :
    p' = stopInternal p ∧
    p'.isLoaded = p.isLoaded ∧ p'.audioData = p.audioData ∧
    p'.duration = p.duration ∧ p'.sampleRate = p.sampleRate ∧
    p'.channels = p.channels ∧ p'.currentFile = p.currentFile ∧
    p'.volume = p.volume ∧
    p'.isPlaying = false ∧ p'.isPaused = false ∧
    p'.hasPlayer = false ∧ p'.position = 0 := by
  subst hr
  have hps : p' = stopInternal p := by
    simp only [LoadFile] at h
    split at h
    · simp only [Option.some.injEq, Prod.mk.injEq] at h
      exact h.2.symm
    · split at h
      · cases dec with
        | fail =>
          simp only [Option.some.injEq, Prod.mk.injEq] at h
          exact h.2.symm
        | ok frames rate ch =>
          simp only at h
          split at h
          · simp at h
          · split at h
            · simp at h
            · simp at h
      · simp only [Option.some.injEq, Prod.mk.injEq] at h
        exact h.2.symm
  subst hps
  simp [stopInternal]

/-- Witness for C2: `LoadFile` on a missing file from the playing demo
state: the track stays loaded but playback is stopped and the position
is zeroed. -/
theorem loadFile_failure_state_witness :
    demoPlaying.isPlaying = true ∧ demoPlaying.position = 5 * second ∧
    ((stopInternal demoPlaying = stopInternal demoPlaying ∧
      (stopInternal demoPlaying).isLoaded = demoPlaying.isLoaded ∧
      (stopInternal demoPlaying).audioData = demoPlaying.audioData ∧
      (stopInternal demoPlaying).duration = demoPlaying.duration ∧
      (stopInternal demoPlaying).sampleRate = demoPlaying.sampleRate ∧
      (stopInternal demoPlaying).channels = demoPlaying.channels ∧
      (stopInternal demoPlaying).currentFile = demoPlaying.currentFile ∧
      (stopInternal demoPlaying).volume = demoPlaying.volume ∧
      (stopInternal demoPlaying).isPlaying = false ∧
      (stopInternal demoPlaying).isPaused = false ∧
      (stopInternal demoPlaying).hasPlayer = false ∧
      (stopInternal demoPlaying).position = 0)) :=
  ⟨by decide, by decide,
   loadFile_failure_state false ".mp3" .fail "missing.mp3" demoPlaying
     (.error ("audio file not found: " ++ "missing.mp3"))
     (stopInternal demoPlaying) ("audio file not found: " ++ "missing.mp3")
     rfl rfl⟩

/-- Counterexample for C2: the failed `LoadFile` observably changes
the player — the pre-state was playing at position 5 s, the post-state
is stopped at position 0. -/
theorem loadFile_failure_not_unchanged :
    (LoadFile false ".mp3" .fail "missing.mp3" demoPlaying).map
      (fun r => (exceptOk r.1, r.2.position, r.2.isPlaying)) =
      some (false, 0, false) ∧
    demoPlaying.position = 5 * second ∧ demoPlaying.isPlaying = true := by
  refine ⟨by decide, by decide, by decide⟩

/-- C3: from a paused state with a live player handle, `Resume`
returns to playing without touching `position` (no reset to 0), and
the resume path of the TUI `play()` skips the karaoke reset, so a
session whose lyric lines are reloaded unchanged keeps its score,
streak and hit/active flags exactly. -/
theorem resume_preserves_position_and_session (p : PlayerState)
    (hPaused : p.isPaused = true) (hPl : p.hasPlayer = true)
    (hpos : 0 < p.position) :
    (Resume p).position = p.position ∧ 0 < (Resume p).position ∧
    (Resume p).isPlaying = true ∧ (Resume p).isPaused = false ∧
    (∀ k : KaraokeState, playKaraoke true k.lyricLines k = k) := by
  refine ⟨?_, ?_, ?_, ?_, ?_⟩ <;>
    simp [Resume, playKaraoke, hPaused, hPl, hpos]

/-- Witness for C3 at the paused demo state (position 5 s > 0). -/
theorem resume_preserves_position_and_session_witness :
    (Resume demoPaused).position = demoPaused.position ∧
    0 < (Resume demoPaused).position ∧
    (Resume demoPaused).isPlaying = true ∧
    (Resume demoPaused).isPaused = false ∧
    (∀ k : KaraokeState, playKaraoke true k.lyricLines k = k) :=
  resume_preserves_position_and_session demoPaused rfl rfl (by decide)

/-- C8: a fresh playback (`play()` with `isPaused = false`) resets the
karaoke session before any scoring tick runs: score, streak, accuracy
and hit count all become 0, `totalLyrics` is re-derived from the
loaded lines, and every line's hit/active flag is cleared — whatever
the prior session held; a resume-from-pause (`isPaused = true`)
performs no reset. -/
theorem fresh_play_resets_session (k : KaraokeState)
    (loaded : List LyricLine) :
    (playKaraoke false loaded k).karaokeScore = 0 ∧
    (playKaraoke false loaded k).streak = 0 ∧
    (playKaraoke false loaded k).accuracy = 0 ∧
    (playKaraoke false loaded k).hitLyrics = 0 ∧
    (playKaraoke false loaded k).totalLyrics = loaded.length ∧
    (playKaraoke false loaded k).lyricLines =
      loaded.map (fun l => { l with isHit := false, isActive := false }) ∧
    playKaraoke true loaded k = { k with lyricLines := loaded } := by
  simp [playKaraoke]

/-- The ordering scan succeeds exactly when every entry's timestamp
is at least its immediate predecessor's (the position counter `i` is
irrelevant to success). -/
theorem checkOrder_ok_iff (e : LyricEntry) (rest : List LyricEntry)
    (i : Nat) :
    checkOrder e rest i = .ok () ↔
      List.Chain (fun a b : LyricEntry => a.time ≤ b.time) e rest := by
  induction rest generalizing e i with
  | nil => simp [checkOrder]
  | cons f rs ih =>
    rw [checkOrder]
    by_cases hlt : f.time < e.time
    · simp only [hlt, if_true, List.chain_cons]
      constructor
      · intro h; exact absurd h (by simp)
      · intro h; exact absurd h.1 (by omega)
    · simp only [hlt, if_false, List.chain_cons, ih]
      constructor
      · intro h; exact ⟨by omega, h⟩
      · intro h; exact h.2

/-- Counterexample for C9: the empty lyric list has (vacuously)
non-decreasing timestamps, yet `ValidateLyrics` rejects it (with the
distinct "no lyrics found" error), so validation does not succeed on
*every* non-decreasing list. -/
theorem validateLyrics_rejects_empty :
    ValidateLyrics [] = .error "no lyrics found" ∧
    List.Chain' (fun a b : LyricEntry => a.time ≤ b.time) [] := by
  exact ⟨rfl, List.chain'_nil⟩

/-- C9 (amended): on every *non-empty* lyric list, `ValidateLyrics`
succeeds exactly when the timestamps are non-decreasing in order; a
list with some entry's timestamp below its immediate predecessor's is
rejected with the chronological-order error.  The empty list is
rejected with a separate "no lyrics found" error. -/
theorem validateLyrics_ok_iff_sorted (e : LyricEntry)
    (rest : List LyricEntry) :
    ValidateLyrics (e :: rest) = .ok () ↔
      List.Chain' (fun a b : LyricEntry => a.time ≤ b.time) (e :: rest) := by
  show checkOrder e rest 1 = .ok () ↔ _
  exact checkOrder_ok_iff e rest 1

/-- C5: evaluating `convertToRawPCM` at the failing input — mono
(`channels = 1`) with two decoded frames — hits an out-of-bounds
store (frame 1's left-channel bytes go to indices 4 and 5 of a 4-byte
buffer), a Go `index out of range` panic, modelled as `none`; the
same two frames convert fine in stereo, and a single mono frame is
also fine, isolating the fault to the `i*4` store stride. -/
theorem convertToRawPCM_mono_out_of_bounds :
    convertToRawPCM 1 1 [((0 : ℚ), 0), ((0 : ℚ), 0)] = none ∧
    (convertToRawPCM 2 1 [((0 : ℚ), 0), ((0 : ℚ), 0)]).isSome = true ∧
    (convertToRawPCM 1 1 [((0 : ℚ), 0)]).isSome = true := by
  exact ⟨by decide, by decide, by decide⟩

/-- Lemma: `hitLyric` either does nothing (out of bounds, or line already
hit) or credits exactly one hit: streak and hit count both up by 1. -/
theorem hitLyric_effect (idx : Int) (a : KaraokeState) :
    hitLyric idx a = a ∨
    ((hitLyric idx a).streak = a.streak + 1 ∧
     (hitLyric idx a).hitLyrics = a.hitLyrics + 1) := by
  unfold hitLyric
  split
  · exact Or.inl rfl
  · split
    · exact Or.inl rfl
    · split
      · exact Or.inl rfl
      · right
        dsimp only
        split_ifs <;> exact ⟨rfl, rfl⟩

/-- One scoring tick either leaves streak and hit count unchanged (no
new line, a miss, or a line already credited) or — on a hit — bumps
both by exactly 1. -/
theorem scoring_tick_streak (pos : Int) (draw : ℚ) (a : KaraokeState) :
    ((updateKaraokeScoring pos draw a).streak = a.streak ∧
     (updateKaraokeScoring pos draw a).hitLyrics = a.hitLyrics) ∨
    ((updateKaraokeScoring pos draw a).streak = a.streak + 1 ∧
     (updateKaraokeScoring pos draw a).hitLyrics = a.hitLyrics + 1) := by
  simp only [updateKaraokeScoring]
  split
  · exact Or.inl ⟨rfl, rfl⟩
  · split
    · split
      · exact Or.inl ⟨rfl, rfl⟩
      · next l hl =>
        split
        · split
          · rcases hitLyric_effect (findCurrentLyricIndex pos a.lyricLines)
              ({ a with lyricLines := (a.lyricLines.set
                  ((findCurrentLyricIndex pos a.lyricLines).toNat)
                  ({ l with isActive := true })) }) with h | h
            · rw [h]; exact Or.inl ⟨rfl, rfl⟩
            · exact Or.inr ⟨h.1, h.2⟩
          · exact Or.inl ⟨rfl, rfl⟩
        · exact Or.inl ⟨rfl, rfl⟩
    · exact Or.inl ⟨rfl, rfl⟩

/-- Streak never decreases over any sequence of scoring ticks. -/
theorem streak_le_foldl_ticks (a : KaraokeState) (ticks : List (Int × ℚ)) :
    a.streak ≤
      (ticks.foldl (fun s td => updateKaraokeScoring td.1 td.2 s) a).streak := by
  induction ticks generalizing a with
  | nil => simp
  | cons t ts ih =>
    simp only [List.foldl_cons]
    have hstep := scoring_tick_streak t.1 t.2 a
    have := ih (updateKaraokeScoring t.1 t.2 a)
    omega

/-- C10: within one session, streak is monotonically non-decreasing
across scoring ticks — a missed line leaves streak (and the hit
count) untouched, and a hit raises streak by exactly 1 (paired with
exactly one new credited hit); consequently streak never drops over
any tick sequence. -/
theorem karaoke_streak_monotone (pos : Int) (draw : ℚ) (a : KaraokeState) :
    (((updateKaraokeScoring pos draw a).streak = a.streak ∧
      (updateKaraokeScoring pos draw a).hitLyrics = a.hitLyrics) ∨
     ((updateKaraokeScoring pos draw a).streak = a.streak + 1 ∧
      (updateKaraokeScoring pos draw a).hitLyrics = a.hitLyrics + 1)) ∧
    (∀ ticks : List (Int × ℚ),
      a.streak ≤
        (ticks.foldl (fun s td => updateKaraokeScoring td.1 td.2 s) a).streak) :=
  ⟨scoring_tick_streak pos draw a, fun ticks => streak_le_foldl_ticks a ticks⟩

/-- The lyric scan computes the length of the maximal satisfying
prefix, minus one (with `-1` for the empty prefix): the loop breaks
at the first line with a later timestamp. -/
theorem findLyricGo_eq_takeWhile (t : Int) (ls : List LyricLine)
    (acc : Int) (i : Nat) :
    findLyricGo t ls acc i =
      if (ls.takeWhile (fun l => decide (l.time ≤ t))).length = 0 then acc
      else (i : Int) +
        ((ls.takeWhile (fun l => decide (l.time ≤ t))).length : Int) - 1 := by
  induction ls generalizing acc i with
  | nil => simp [findLyricGo]
  | cons l rest ih =>
    by_cases hle : l.time ≤ t
    · have htw : (l :: rest).takeWhile (fun l => decide (l.time ≤ t)) =
          l :: rest.takeWhile (fun l => decide (l.time ≤ t)) := by
        simp [List.takeWhile_cons, hle]
      rw [findLyricGo, if_pos hle, ih, htw]
      simp only [List.length_cons]
      rw [if_neg (Nat.succ_ne_zero _)]
      by_cases h0 : (rest.takeWhile (fun l => decide (l.time ≤ t))).length = 0
      · rw [if_pos h0, h0]
        push_cast
        omega
      · rw [if_neg h0]
        push_cast
        omega
    · have htw : (l :: rest).takeWhile (fun l => decide (l.time ≤ t)) = [] := by
        simp [List.takeWhile_cons, hle]
      rw [findLyricGo, if_neg hle, htw]
      simp

/-- Every position strictly inside the `takeWhile` prefix satisfies
the predicate. -/
theorem takeWhile_get_sat {α : Type} (f : α → Bool) :
    ∀ (ls : List α) (j : Nat), j < (ls.takeWhile f).length →
      ∀ (hj : j < ls.length), f (ls.get ⟨j, hj⟩) = true := by
  intro ls
  induction ls with
  | nil => intro j h; simp at h
  | cons a l ih =>
    intro j h hj
    cases hfa : f a with
    | false => rw [List.takeWhile_cons, hfa] at h; simp at h
    | true =>
      rw [List.takeWhile_cons, hfa] at h
      simp only [if_true, List.length_cons] at h
      cases j with
      | zero => simpa using hfa
      | succ j' => exact ih j' (by omega) (by simpa using hj)

/-- The element just past the `takeWhile` prefix (when it exists)
fails the predicate. -/
theorem takeWhile_get_stop {α : Type} (f : α → Bool) :
    ∀ (ls : List α) (h : (ls.takeWhile f).length < ls.length),
      f (ls.get ⟨(ls.takeWhile f).length, h⟩) = false := by
  intro ls
  induction ls with
  | nil => intro h; simp at h
  | cons a l ih =>
    intro h
    cases hfa : f a with
    | false => simp [List.takeWhile_cons, hfa]
    | true =>
      have h' : (l.takeWhile f).length < l.length := by
        rw [List.takeWhile_cons, hfa] at h
        simpa using h
      have := ih h'
      simp only [List.takeWhile_cons, hfa, if_true, List.length_cons]
      simpa using this

/-- The `takeWhile` prefix is never longer than the list. -/
theorem takeWhile_length_le' {α : Type} (f : α → Bool) (ls : List α) :
    (ls.takeWhile f).length ≤ ls.length := by
  induction ls with
  | nil => simp
  | cons a l ih =>
    rw [List.takeWhile_cons]
    cases f a <;> simp
    omega

/-- C6: over a timeline with non-decreasing timestamps (the
`LyricTimeline` invariant), `findCurrentLyricIndex t` is `-1` exactly
when `t` precedes the first line, and otherwise is the index of the
*last* line whose timestamp is ≤ `t`: it is a valid index whose line
has timestamp ≤ `t`, and every index whose line's timestamp is ≤ `t`
is ≤ it. -/
theorem findCurrentLyricIndex_spec (lines : List LyricLine) (t : Int)
    (hsort : List.Pairwise (fun a b : LyricLine => a.time ≤ b.time) lines) :
    (-1 : Int) ≤ findCurrentLyricIndex t lines ∧
    findCurrentLyricIndex t lines < (lines.length : Int) ∧
    (∀ hne : lines ≠ [], t < (lines.head hne).time →
        findCurrentLyricIndex t lines = -1) ∧
    (∀ (j : Nat) (hj : j < lines.length), (lines.get ⟨j, hj⟩).time ≤ t →
        (j : Int) ≤ findCurrentLyricIndex t lines) ∧
    (0 ≤ findCurrentLyricIndex t lines →
      ∃ h : (findCurrentLyricIndex t lines).toNat < lines.length,
        (lines.get ⟨(findCurrentLyricIndex t lines).toNat, h⟩).time ≤ t) := by
  have hchar : findCurrentLyricIndex t lines =
      if (lines.takeWhile (fun l => decide (l.time ≤ t))).length = 0 then -1
      else ((lines.takeWhile (fun l => decide (l.time ≤ t))).length : Int) - 1 := by
    rw [findCurrentLyricIndex, findLyricGo_eq_takeWhile]
    split_ifs <;> omega
  have hlen := takeWhile_length_le' (fun l => decide (l.time ≤ t)) lines
  refine ⟨?_, ?_, ?_, ?_, ?_⟩
  · rw [hchar]; split_ifs <;> omega
  · rw [hchar]; split_ifs <;> omega
  · intro hne hlt
    rw [hchar]
    cases lines with
    | nil => exact absurd rfl hne
    | cons a rest =>
      have : ¬(a.time ≤ t) := by simpa using hlt
      simp [List.takeWhile_cons, this]
  · intro j hj hjt
    have hjk : j < (lines.takeWhile (fun l => decide (l.time ≤ t))).length := by
      by_contra hk
      push_neg at hk
      have hkl : (lines.takeWhile (fun l => decide (l.time ≤ t))).length <
          lines.length := by omega
      have hstop := takeWhile_get_stop (fun l => decide (l.time ≤ t)) lines hkl
      simp only [decide_eq_false_iff_not, not_le] at hstop
      rcases Nat.lt_or_ge (lines.takeWhile (fun l => decide (l.time ≤ t))).length
          j with hkj | hkj
      · have hmono := List.pairwise_iff_get.mp hsort
          ⟨(lines.takeWhile (fun l => decide (l.time ≤ t))).length, hkl⟩
          ⟨j, hj⟩ hkj
        exact absurd hjt (not_le.mpr (lt_of_lt_of_le hstop hmono))
      · have hj' : j = (lines.takeWhile (fun l => decide (l.time ≤ t))).length := by
          omega
        subst hj'
        exact absurd hjt (not_le.mpr hstop)
    rw [hchar, if_neg (by omega)]
    omega
  · intro hpos
    rw [hchar] at hpos ⊢
    by_cases hz : (lines.takeWhile (fun l => decide (l.time ≤ t))).length = 0
    · rw [if_pos hz] at hpos; omega
    · rw [if_neg hz] at hpos ⊢
      refine ⟨by omega, ?_⟩
      have hsat := takeWhile_get_sat (fun l => decide (l.time ≤ t)) lines
        ((((lines.takeWhile (fun l => decide (l.time ≤ t))).length : Int) - 1).toNat)
        (by omega) (by omega)
      simp only [decide_eq_true_eq] at hsat
      exact hsat

/-- Witness for C6 at the spec's scenario timeline: position 4 s gives
index 1 ("B"), 0.5 s gives index 0 ("A"), position 0 (a negative
position clamped to 0) gives index 0. -/
theorem findCurrentLyricIndex_spec_witness :
    ((-1 : Int) ≤ findCurrentLyricIndex (4 * second) demoTimeline ∧
     findCurrentLyricIndex (4 * second) demoTimeline <
       (demoTimeline.length : Int) ∧
     (∀ hne : demoTimeline ≠ [],
        4 * second < (demoTimeline.head hne).time →
        findCurrentLyricIndex (4 * second) demoTimeline = -1) ∧
     (∀ (j : Nat) (hj : j < demoTimeline.length),
        (demoTimeline.get ⟨j, hj⟩).time ≤ 4 * second →
        (j : Int) ≤ findCurrentLyricIndex (4 * second) demoTimeline) ∧
     (0 ≤ findCurrentLyricIndex (4 * second) demoTimeline →
       ∃ h : (findCurrentLyricIndex (4 * second) demoTimeline).toNat <
           demoTimeline.length,
         (demoTimeline.get
           ⟨(findCurrentLyricIndex (4 * second) demoTimeline).toNat, h⟩).time ≤
           4 * second)) ∧
    findCurrentLyricIndex (4 * second) demoTimeline = 1 ∧
    findCurrentLyricIndex (second / 2) demoTimeline = 0 ∧
    findCurrentLyricIndex 0 demoTimeline = 0 :=
  ⟨findCurrentLyricIndex_spec demoTimeline (4 * second) (by decide),
   by decide, by decide, by decide⟩

/-- Setting an element past a prefix acts on the suffix. -/
theorem set_append_add (pre tail : List Nat) (k b : Nat) :
    (pre ++ tail).set (pre.length + k) b = pre ++ tail.set k b := by
  rw [List.set_append_right _ _ (by omega), Nat.add_sub_cancel_left]

/-- An in-bounds store past a prefix succeeds and acts on the suffix. -/
theorem writeByte_append (pre tail : List Nat) (k b : Nat)
    (hk : k < tail.length) :
    writeByte (pre ++ tail) (pre.length + k) b =
      some (pre ++ tail.set k b) := by
  rw [writeByte, if_pos (by rw [List.length_append]; omega), set_append_add]

/-- In stereo, the conversion body for frame `i` fills exactly the
four bytes at offset `i*4` with the frame's scaled, clamped,
quantized little-endian samples. -/
theorem convertFrame_stereo (v : ℚ) (i : Nat) (s : ℚ × ℚ)
    (pre : List Nat) (r0 r1 r2 r3 : Nat) (tail : List Nat)
    (hpre : pre.length = i * 4) :
    convertFrame 2 v i s (pre ++ r0 :: r1 :: r2 :: r3 :: tail) =
      some (pre ++ frameBytes v s ++ tail) := by
  have e0 : i * 4 = pre.length + 0 := by omega
  unfold convertFrame
  dsimp only
  rw [e0, writeByte_append _ _ 0 _ (by simp)]
  simp only [Nat.add_zero, List.set, Option.bind_eq_bind, Option.some_bind]
  rw [writeByte_append _ _ 1 _ (by simp)]
  simp only [List.set, Option.bind_eq_bind, Option.some_bind]
  rw [if_pos (by norm_num : (2:Nat) > 1)]
  rw [writeByte_append _ _ 2 _ (by simp)]
  simp only [List.set, Option.bind_eq_bind, Option.some_bind]
  rw [writeByte_append _ _ 3 _ (by simp)]
  simp [frameBytes]

/-- The stereo conversion loop writes each frame's four bytes in
frame order, never failing, and leaves exactly the concatenation of
the per-frame byte groups. -/
theorem convertLoop_stereo (v : ℚ) :
    ∀ (samples : List (ℚ × ℚ)) (i : Nat) (pre rest : List Nat),
      pre.length = i * 4 → rest.length = 4 * samples.length →
      convertLoop 2 v samples i (pre ++ rest) =
        some (pre ++ samples.flatMap (frameBytes v)) := by
  intro samples
  induction samples with
  | nil =>
    intro i pre rest hpre hrest
    have hr : rest = [] := List.length_eq_zero.mp (by simpa using hrest)
    subst hr
    simp [convertLoop]
  | cons s ss ih =>
    intro i pre rest hpre hrest
    rcases rest with _ | ⟨r0, rest⟩
    · exfalso; simp at hrest
    rcases rest with _ | ⟨r1, rest⟩
    · exfalso; simp at hrest; omega
    rcases rest with _ | ⟨r2, rest⟩
    · exfalso; simp at hrest; omega
    rcases rest with _ | ⟨r3, tail⟩
    · exfalso; simp at hrest; omega
    rw [convertLoop, convertFrame_stereo v i s pre r0 r1 r2 r3 tail hpre]
    simp only [Option.bind_eq_bind, Option.some_bind]
    have hassoc : pre ++ frameBytes v s ++ tail =
        (pre ++ frameBytes v s) ++ tail := by
      simp [List.append_assoc]
    rw [hassoc, ih (i + 1) (pre ++ frameBytes v s) tail
      (by simp [frameBytes, hpre]; omega)
      (by simp at hrest; omega)]
    simp [List.flatMap_cons, List.append_assoc]

/-- For stereo input, `convertToRawPCM` succeeds and its output is
exactly the per-frame spec bytes, interleaved in frame order. -/
theorem convertToRawPCM_stereo (v : ℚ) (samples : List (ℚ × ℚ)) :
    convertToRawPCM 2 v samples = some (samples.flatMap (frameBytes v)) := by
  have h := convertLoop_stereo v samples 0 []
    (List.replicate (samples.length * 2 * 2) 0) (by simp) (by simp; ring)
  simpa using h

/-- C4: the sample-buffer build multiplies each channel sample by the
volume *first*, then clamps the product to `[-1, 1]`, then quantizes
the clamped value to a 16-bit signed little-endian integer,
interleaving the channels in frame order (`frameBytes`); and a
product already inside `[-1, 1]` — e.g. an over-range input sample
attenuated by the volume — passes through the clamp unchanged, so it
is quantized without clamping loss. -/
theorem convert_scales_then_clamps (frames : List (ℚ × ℚ)) (v x : ℚ)
    (h1 : -1 ≤ x * v) (h2 : x * v ≤ 1) :
    convertToRawPCM 2 v frames = some (frames.flatMap (frameBytes v)) ∧
    clampSample (x * v) = x * v ∧
    quant16 (clampSample (x * v)) = quant16 (x * v) := by
  have hcl : clampSample (x * v) = x * v := by
    unfold clampSample
    rw [if_neg (by linarith), if_neg (by linarith)]
  exact ⟨convertToRawPCM_stereo v frames, hcl, by rw [hcl]⟩

/-- Witness for C4: the over-range sample 3/2 attenuated by volume
1/2 lands at 3/4 inside `[-1, 1]` and is not clamped. -/
theorem convert_scales_then_clamps_witness :
    (-1 ≤ (3/2 : ℚ) * (1/2) ∧ (3/2 : ℚ) * (1/2) ≤ 1) ∧
    (convertToRawPCM 2 (1/2) [((3/2 : ℚ), 0)] =
      some ([((3/2 : ℚ), 0)].flatMap (frameBytes (1/2))) ∧
     clampSample ((3/2 : ℚ) * (1/2)) = (3/2 : ℚ) * (1/2) ∧
     quant16 (clampSample ((3/2 : ℚ) * (1/2))) =
       quant16 ((3/2 : ℚ) * (1/2))) :=
  ⟨⟨by norm_num, by norm_num⟩,
   convert_scales_then_clamps [((3/2 : ℚ), 0)] (1/2) (3/2)
     (by norm_num) (by norm_num)⟩

end Tuneminal
